import Mathlib

/-!
Verification development for panmk (src/panmk.py), a compile-and-preview
supervisor around pandoc.  The Python source is shallowly embedded below:
pure helpers become Lean functions, process-affecting calls are recorded in
an explicit event trace, exceptions are modelled with `Except`, and the
continuous watch loop becomes a recursive function over the list of poll
observations supplied by the environment.
-/

namespace Panmk

/-! ## Character-level string helpers

Python string/path primitives used by the source (`str.lower`, substring
containment via `in`, `os.path.basename`, `os.path.splitext`,
`str.format(filename=...)`) are modelled over `List Char`. -/

/-- Python `str.lower` (`Char.toLower` is faithful for the ASCII platform
names and extensions this program manipulates). -/
def pyLower (s : String) : String := String.mk (s.toList.map Char.toLower)

/-- Boolean substring containment on character lists, the semantics of
Python's `pat in hay` for strings. -/
def containsSubChars (hay pat : List Char) : Bool :=
  (List.range (hay.length + 1)).any (fun i => pat.isPrefixOf (hay.drop i))

/-- Python `pat in hay` for `String`. -/
def strContains (hay pat : String) : Bool := containsSubChars hay.toList pat.toList

/-- Index of the last occurrence of `c`, as used by `str.rfind`. -/
def lastIdxOf (c : Char) : List Char → Option Nat
  | [] => none
  | x :: xs =>
    match lastIdxOf c xs with
    | some i => some (i + 1)
    | none => if x = c then some 0 else none

/-- Portion of the path after the last separator: `os.path.basename`. -/
def basenameChars (cs : List Char) : List Char :=
  cs.foldl (fun acc c => if c = '/' then [] else acc ++ [c]) []

/-- Python `posixpath.splitext` on a basename: split at the last dot,
provided some character before that dot is not itself a dot (leading dots
mark a hidden file, not an extension). -/
def splitextChars (cs : List Char) : List Char × List Char :=
  match lastIdxOf '.' cs with
  | none => (cs, [])
  | some i => if (cs.take i).any (fun ch => ch ≠ '.') then (cs.take i, cs.drop i) else (cs, [])

/-- String-level `os.path.basename`. -/
def basename (s : String) : String := String.mk (basenameChars s.toList)

/-- String-level `os.path.splitext` (applied after `basename` in the source). -/
def splitext (s : String) : String × String :=
  let p := splitextChars s.toList
  (String.mk p.1, String.mk p.2)

/-- Fuel-driven worker for `replaceList`; the fuel bounds the number of
characters still to scan, keeping the recursion structural. -/
def replaceAux (pat rep : List Char) : Nat → List Char → List Char
  | 0, cs => cs
  | _ + 1, [] => []
  | fuel + 1, c :: cs =>
    if pat.isPrefixOf (c :: cs) && !pat.isEmpty then
      rep ++ replaceAux pat rep fuel ((c :: cs).drop pat.length)
    else
      c :: replaceAux pat rep fuel cs

/-- Replacement of each occurrence of `pat` by `rep`, left to right, the
behaviour of `str.format` on the single placeholder used by the source. -/
def replaceList (pat rep cs : List Char) : List Char :=
  replaceAux pat rep cs.length cs

/-! ## Platform classifier (src/panmk.py, `get_platform`, lines 21-36) -/

/-- Ordered list of known platform tags scanned by `get_platform`. -/
def platforms : List String := ["windows", "cygin", "darwin", "bsd"]

/-- Shallow embedding of `get_platform`: lower-case the host system name,
return the first tag of `platforms` contained in it as a substring, and
fall back to `"linux"` when none matches (the `for`/`else` in the source). -/
def get_platform (system : String) : String :=
  let platform := pyLower system
  match platforms.find? (fun plat => strContains platform plat) with
  | some plat => plat
  | none => "linux"

/-! ## Events, exceptions, processes

The observable effects of the program (subprocess calls, signals, compiler
invocations, the dead `sleep(1)` site, rc-file merges) are recorded as an
event trace; Python exceptions that the source can raise or catch are the
constructors of `PyExc`. -/

/-- Observable side effects of the embedded program, in execution order. -/
inductive Event where
  | statPoll (meta : Nat)
  | compile (src outFile : String)
  | runProcess (argv : List String)
  | spawn (pid : Nat) (argv : List String)
  | terminate (pid : Nat)
  | waitReturned (pid : Nat)
  | kill (pid : Nat)
  | signal (pid : Nat) (sig : Nat)
  | sleep (secs : Nat)
  | rcMerged (path : String)
  deriving DecidableEq

/-- Python exceptions relevant to the source. -/
inductive PyExc where
  | timeoutExpired
  | typeError
  | attributeError
  | keyboardInterrupt
  | nameError (n : String)
  | keyError (k : String)
  deriving DecidableEq

/-- One launched viewer process (a `subprocess.Popen` handle): its pid, the
command line it was launched with (`proc.args`), and whether it exits within
`DEATH_DELAY` seconds of `terminate()` (the behaviour `proc.wait(timeout=...)`
observes). -/
structure Proc where
  pid : Nat
  args : List String
  exitsWithinGrace : Bool
  deriving DecidableEq

/-- Python values flowing through the hook plumbing: strings (paths),
process handles, `CompletedProcess` results of `subprocess.run`, lists of
strings, and `None`. -/
inductive PyVal where
  | str (s : String)
  | procH (p : Proc)
  | completed (argv : List String)
  | strList (argv : List String)
  | noneV
  deriving DecidableEq

/-- Result of one embedded step: the events it emitted, the next fresh pid
after it, and its value or the exception it raised. -/
structure Step (α : Type) where
  ev : List Event
  np : Nat
  res : Except PyExc α

instance {ε α : Type} [DecidableEq ε] [DecidableEq α] : DecidableEq (Except ε α) := fun a b =>
  match a, b with
  | .ok x, .ok y => decidable_of_iff (x = y) (by simp)
  | .error x, .error y => decidable_of_iff (x = y) (by simp)
  | .ok _, .error _ => isFalse (by simp)
  | .error _, .ok _ => isFalse (by simp)

instance {α : Type} [DecidableEq α] : DecidableEq (Step α) := fun a b =>
  decidable_of_iff (a.ev = b.ev ∧ a.np = b.np ∧ a.res = b.res)
    (by cases a; cases b; simp)

/-- Number of seconds between `terminate()` and `kill()` (the `DEATH_DELAY`
constant, line 19). -/
def DEATH_DELAY : Nat := 5

/-! ## Subprocess primitives and the built-in hooks -/

/-- Checks that every argv element is a string, extracting the strings;
`subprocess` raises `TypeError` on any non-string argument. -/
def allStrings : List PyVal → Option (List String)
  | [] => some []
  | .str s :: rest => (allStrings rest).map (fun ss => s :: ss)
  | _ => none

/-- Shallow embedding of `subprocess.run(argv)`: runs the command and
returns a `CompletedProcess` when every element of `argv` is a string,
raises `TypeError` otherwise. -/
def subprocess_run (argv : List PyVal) : List Event × Except PyExc PyVal :=
  match allStrings argv with
  | some ss => ([.runProcess ss], .ok (.completed ss))
  | none => ([], .error .typeError)

/-- Shallow embedding of `subprocess.Popen(v)`: spawns a fresh process from
a string or a list of strings, raises `TypeError` on anything else (in
particular on a `CompletedProcess`).  The liveness behaviour of the fresh
process is supplied by the oracle `gb` (it is not observable at spawn time). -/
def subprocess_Popen (gb : Nat → Bool) (v : PyVal) (np : Nat) : Step Proc :=
  match v with
  | .str s => ⟨[.spawn np [s]], np + 1, .ok ⟨np, [s], gb np⟩⟩
  | .strList ss =>
    match allStrings (ss.map PyVal.str) with
    | some ss2 => ⟨[.spawn np ss2], np + 1, .ok ⟨np, ss2, gb np⟩⟩
    | none => ⟨[], np, .error .typeError⟩
  | _ => ⟨[], np, .error .typeError⟩

/-- Shallow embedding of `call_pandoc(path, output, args)` (lines 139-147):
substitutes the source basename into the output template, invokes pandoc
synchronously, prints diagnostics non-fatally, and returns the output path. -/
def call_pandoc (path output : String) : List Event × String :=
  let base := (splitext (basename path)).1
  let output_file := String.mk (replaceList "{filename}".toList base.toList output.toList)
  ([.compile path output_file], output_file)

/-- Loader callables that can stand in `load_file` position: the platform
default `get_file_loader(platform)` from the source, or a custom rc hook
that returns a fixed argv list. -/
inductive LoadFn where
  | dflt (platform : String)
  | constCmd (argv : List String)
  deriving DecidableEq

/-- Shallow embedding of `get_loader_cmd(platform)` (lines 150-167): the
argv for viewing a file on the given platform, with the argument spliced in
as-is. -/
def get_loader_cmd (platform : String) (x : PyVal) : List PyVal :=
  if platform == "windows" then [.str "start", x]
  else if platform == "cygin" then [.str "cmd", .str "/c", .str "start", x]
  else if platform == "darwin" then [.str "open", x]
  else [.str "xdg-open", x]

/-- Applies a loader callable to a value: `get_file_loader`'s lambda runs
`subprocess.run(cmd(x))`; a constant custom hook returns its argv list
without running anything. -/
def applyLoad : LoadFn → PyVal → List Event × Except PyExc PyVal
  | .dflt platform, x => subprocess_run (get_loader_cmd platform x)
  | .constCmd a, _ => ([], .ok (.strList a))

/-- The hook callables that `main` can wire into `continuous`: `None`
(never assigned / falsy), the `lambda x: None` and `do_nothing` no-ops,
`send_signal(sig)`, `hard_restart`, `pre_reload_kill_proc`, a file loader
used as a hook, and `run_command(argv)`. -/
inductive Hook where
  | noneHook
  | doNothing
  | sendSignal (sig : Nat)
  | hardRestart
  | killProc
  | loadFn (lf : LoadFn)
  | runCommand (argv : List String)
  deriving DecidableEq

/-- Shallow embedding of `hard_restart(proc)` (lines 198-211): save
`proc.args`, call `terminate()`, then `proc.wait(timeout=DEATH_DELAY)` —
which raises `TimeoutExpired` when the process is still alive after the
grace period — then `kill()` and relaunch.  The returned `Proc` models the
rebinding of the function-local variable `proc`; the Python function
returns `None`, so callers never see it. -/
def hard_restart (gb : Nat → Bool) (proc : Proc) (np : Nat) : Step Proc :=
  let a := proc.args
  if proc.exitsWithinGrace then
    ⟨[.terminate proc.pid, .waitReturned proc.pid, .kill proc.pid, .spawn np a], np + 1,
     .ok ⟨np, a, gb np⟩⟩
  else
    ⟨[.terminate proc.pid], np, .error .timeoutExpired⟩

/-- Shallow embedding of `get_file_loader(platform)` (lines 170-174). -/
def get_file_loader (platform : String) : Hook := .loadFn (.dflt platform)

/-- Shallow embedding of `get_file_reloader(platform)` (lines 219-231):
`hard_restart` on windows, SIGINFO (29) on darwin/bsd, SIGHUP (1) on
linux/cygin; the function body has no final `else`, so any other platform
string falls off the end and yields `None`. -/
def get_file_reloader (platform : String) : Hook :=
  if platform == "windows" then .hardRestart
  else if platform == "darwin" || platform == "bsd" then .sendSignal 29
  else if platform == "linux" || platform == "cygin" then .sendSignal 1
  else .noneHook

/-- Applies a hook callable to one Python value, mirroring each builtin:
calling `None` raises `TypeError`; `send_signal`/`kill`/`hard_restart`
access process-handle attributes and raise `AttributeError` on a
non-process argument; a loader hook builds its argv with the argument
spliced in. -/
def applyHookVal (gb : Nat → Bool) : Hook → PyVal → Nat → Step PyVal
  | .noneHook, _, np => ⟨[], np, .error .typeError⟩
  | .doNothing, _, np => ⟨[], np, .ok .noneV⟩
  | .sendSignal s, v, np =>
    match v with
    | .procH p => ⟨[.signal p.pid s], np, .ok .noneV⟩
    | _ => ⟨[], np, .error .attributeError⟩
  | .killProc, v, np =>
    match v with
    | .procH p => ⟨[.kill p.pid], np, .ok .noneV⟩
    | _ => ⟨[], np, .error .attributeError⟩
  | .hardRestart, v, np =>
    match v with
    | .procH p =>
      let s := hard_restart gb p np
      ⟨s.ev, s.np, s.res.map (fun _ => PyVal.noneV)⟩
    | _ => ⟨[], np, .error .attributeError⟩
  | .loadFn lf, v, np =>
    let r := applyLoad lf v
    ⟨r.1, np, r.2⟩
  | .runCommand a, _, np => ⟨[.runProcess a], np, .ok (.completed a)⟩

/-- Shallow embedding of `get_reloadable(path, load_file)` (lines 177-180):
`subprocess.Popen(load_file(path))`. -/
def get_reloadable (gb : Nat → Bool) (path : String) (loadH : Hook) (np : Nat) : Step Proc :=
  let s := applyHookVal gb loadH (.str path) np
  match s.res with
  | .error e => ⟨s.ev, s.np, .error e⟩
  | .ok v =>
    let t := subprocess_Popen gb v s.np
    ⟨s.ev ++ t.ev, t.np, t.res⟩

/-! ## The continuous watch loop (src/panmk.py, `continuous`, lines 237-258)

The loop's environment is a list of poll observations: the `os.stat` value
seen by that iteration plus where (if anywhere) a KeyboardInterrupt is
delivered during the iteration. -/

/-- Where a user interrupt arrives during one poll iteration: nowhere,
while the inner pre-reload/recompile/reload `try` block runs, or during
the outer poll itself. -/
inductive IPt where
  | quiet
  | inner
  | outer
  deriving DecidableEq

/-- How a (finitely observed) run of the `while` loop ends: still looping
when the observations run out, normal exit of the `while` (only possible if
its condition were false), stopped by an interrupt at the outer poll, or an
uncaught exception propagating out. -/
inductive LoopRes where
  | running (pre : Option Nat) (proc : Proc)
  | normalExit (pre : Option Nat) (proc : Proc)
  | interrupted
  | raised (e : PyExc)
  deriving DecidableEq

/-- Trace, next fresh pid and outcome of a loop run. -/
structure LoopOut where
  ev : List Event
  np : Nat
  res : LoopRes
  deriving DecidableEq

/-- The literal condition of `while True:` (line 244). -/
def loopCond : Bool := true

/-- Body of the inner `try` (lines 250-253): `pre_reload_file(proc)`, then
`call_pandoc(...)`, then `reload_file(proc)`; an exception in an earlier
step skips the later ones. -/
def innerSeq (gb : Nat → Bool) (fn out : String) (preH reloadH : Hook)
    (proc : Proc) (np : Nat) : Step Unit :=
  let s1 := applyHookVal gb preH (.procH proc) np
  match s1.res with
  | .error e => ⟨s1.ev, s1.np, .error e⟩
  | .ok _ =>
    let c := call_pandoc fn out
    let s2 := applyHookVal gb reloadH (.procH proc) s1.np
    ⟨s1.ev ++ c.1 ++ s2.ev, s2.np, s2.res.map (fun _ => ())⟩

/-- Shallow embedding of the `while True:` loop of `continuous` (lines
244-256): poll `os.stat`, and when the observed metadata differs from the
previously recorded value, record it and run the inner sequence, catching
only `KeyboardInterrupt` there; an interrupt at the outer poll escapes the
`while` (to be caught by the outer handler); the loop variable `proc` is
never rebound. -/
def watchLoop (gb : Nat → Bool) (fn out : String) (preH reloadH : Hook) :
    List (Nat × IPt) → Option Nat → Proc → Nat → LoopOut
  | [], pre, proc, np => ⟨[], np, .running pre proc⟩
  | (st, ipt) :: rest, pre, proc, np =>
    if loopCond then
      match ipt with
      | .outer => ⟨[], np, .interrupted⟩
      | _ =>
        if some st ≠ pre then
          let inner : Step Unit :=
            match ipt with
            | .inner => ⟨[], np, .error .keyboardInterrupt⟩
            | _ => innerSeq gb fn out preH reloadH proc np
          match inner.res with
          | .error .keyboardInterrupt =>
            let o := watchLoop gb fn out preH reloadH rest (some st) proc inner.np
            ⟨.statPoll st :: (inner.ev ++ o.ev), o.np, o.res⟩
          | .error e => ⟨.statPoll st :: inner.ev, inner.np, .raised e⟩
          | .ok _ =>
            let o := watchLoop gb fn out preH reloadH rest (some st) proc inner.np
            ⟨.statPoll st :: (inner.ev ++ o.ev), o.np, o.res⟩
        else
          let o := watchLoop gb fn out preH reloadH rest pre proc np
          ⟨.statPoll st :: o.ev, o.np, o.res⟩
    else ⟨[], np, .normalExit pre proc⟩

/-- Outcome of one call to `continuous`: still inside the loop when the
observations ran out, returned normally, or an exception propagated out. -/
inductive ContRes where
  | stillRunning
  | returned
  | raised (e : PyExc)
  deriving DecidableEq

/-- Trace, next fresh pid and outcome of a `continuous` session. -/
structure ContOut where
  ev : List Event
  np : Nat
  res : ContRes
  deriving DecidableEq

/-- What runs after the `while` loop inside `continuous`: normal exit of
the `while` would reach the trailing `sleep(1)` (line 256) and then return;
an interrupt that escaped the loop is caught by the outer
`except KeyboardInterrupt: pass`, skipping the `sleep`; any other exception
propagates; a still-looping run has produced nothing further yet. -/
def afterLoop : LoopRes → List Event × ContRes
  | .running _ _ => ([], .stillRunning)
  | .normalExit _ _ => ([.sleep 1], .returned)
  | .interrupted => ([], .returned)
  | .raised e => ([], .raised e)

/-- Shallow embedding of `continuous(platform, args, pandoc_args, ...)`
(lines 237-258): initial compile, launch of the viewer via
`get_reloadable` (outside the `try`, so its exceptions propagate), then the
watch loop wrapped by the outer `except KeyboardInterrupt`. -/
def continuous (gb : Nat → Bool) (fn out : String) (loadH preH reloadH : Hook)
    (polls : List (Nat × IPt)) (np : Nat) : ContOut :=
  let c := call_pandoc fn out
  let s := get_reloadable gb c.2 loadH np
  match s.res with
  | .error e => ⟨c.1 ++ s.ev, s.np, .raised e⟩
  | .ok proc =>
    let o := watchLoop gb fn out preH reloadH polls none proc s.np
    let t := afterLoop o.res
    ⟨c.1 ++ s.ev ++ o.ev ++ t.1, o.np, t.2⟩

/-- Exit status of the session as a function of how `continuous` came back
(lines 341-348: `main` returns 0 after `continuous` returns, and
`sys.exit(main())` delivers it; an uncaught exception ends the interpreter
with a traceback instead, and a still-running loop has not exited). -/
def sessionExit : ContRes → Option Nat
  | .returned => some 0
  | .raised _ => none
  | .stillRunning => none

/-! ## Configuration and the override resolver (src/panmk.py, `main`, lines 294-333)

A resolved configuration is an association list from section names to
sections (string-keyed string values), as produced by `read_config`.
Custom hook entries are raw strings handed to Python `eval`; the behaviour
of `eval` on those arbitrary strings is a parameter of the model. -/

/-- One configuration section: option name to raw string value. -/
abbrev Sect : Type := List (String × String)

/-- A resolved configuration: section name to section. -/
abbrev Conf : Type := List (String × Sect)

/-- What `eval` of a raw settings string produced: a value, or an
`Exception`-class error (which line 312's `except Exception` catches). -/
inductive PyObj where
  | noneObj
  | falsyObj
  | hookObj (h : Hook)
  deriving DecidableEq

/-- Result of evaluating one raw hook string. -/
inductive EvalRes where
  | raises
  | val (v : PyObj)
  deriving DecidableEq

/-- Python truthiness on evaluated hook values: only a callable hook is
truthy; `None` and other falsy returns are not. -/
def truthy : PyObj → Bool
  | .hookObj _ => true
  | _ => false

/-- Python `x or default` on an evaluated hook value. -/
def pyOr (v : PyObj) (dflt : Hook) : Hook :=
  match v with
  | .hookObj h => h
  | _ => dflt

/-- The length of the pair returned by `os.path.splitext`, as seen by the
`len(ext) < 2` test on line 296: a 2-tuple always has length 2. -/
def pyTupleLen (_t : String × String) : Nat := 2

/-- Shallow embedding of the extension computation, lines 294-301:
`splitext(basename(output))`, the (never-true) `len(ext) < 2` test, and
otherwise `ext[1][1:]` — the extension string with its dot stripped. -/
def computeExt (output : String) : Option String :=
  let ext := splitext (basename output)
  if pyTupleLen ext < 2 then none
  else some (String.mk ((ext.2).toList.drop 1))

/-- Python `sect.get(key, 'None')` on a section. -/
def pyGet (sect : Sect) (key dflt : String) : String :=
  match List.lookup key sect with
  | some v => v
  | none => dflt

/-- Shallow embedding of one `try: h = eval(sect.get(name, 'None')) or dflt
except Exception: h = dflt` block (lines 310-313, 323-330). -/
def resolveOne (sect : Sect) (key : String) (ev : String → EvalRes) (dflt : Hook) : Hook :=
  match ev (pyGet sect key "None") with
  | .raises => dflt
  | .val v => pyOr v dflt

/-- Python `conf.get(ext)` where `ext` may be `None` (lines 308, 321). -/
def confGetOpt (conf : Conf) (ext : Option String) : Option Sect :=
  match ext with
  | none => none
  | some e => List.lookup e conf

/-- Python truthiness of `conf.get(ext)`: present and non-empty. -/
def sectTruthy (o : Option Sect) : Bool :=
  match o with
  | some s => !s.isEmpty
  | none => false

/-- The three hooks as bound by `main` after lines 294-333.  `load_file` is
an `Option` because the `ext is not None` guard can (in principle) leave
the variable unassigned. -/
structure ResolvedB where
  load_file : Option Hook
  reload_file : Hook
  pre_reload_file : Hook
  deriving DecidableEq

/-- Shallow embedding of the hook resolution block of `main` (lines
294-333).  Returns the list of keys passed to `conf.get` (the override
lookups performed), and the bound hooks or the exception the block raises.
With `--new-viewer`, `reload_file = load_file` and
`pre_reload_file = pre_reload_kill_proc`; the default `pre_reload_file`
`lambda x: None` behaves as `do_nothing`. -/
def resolveHooks (output : String) (conf : Conf) (ev : String → EvalRes)
    (platform : String) (newViewer : Bool) :
    List (Option String) × Except PyExc ResolvedB :=
  let ext := computeExt output
  let loadPair : List (Option String) × Option Hook :=
    match ext with
    | none => ([], none)
    | some e =>
      if sectTruthy (List.lookup e conf) then
        ([some e],
         some (resolveOne ((List.lookup e conf).getD []) "load_file" ev (get_file_loader platform)))
      else
        ([some e], some (get_file_loader platform))
  if newViewer then
    match loadPair.2 with
    | none => (loadPair.1, .error (.nameError "load_file"))
    | some lf => (loadPair.1, .ok ⟨some lf, lf, .killProc⟩)
  else
    let got := confGetOpt conf ext
    if sectTruthy got then
      (loadPair.1 ++ [ext], .ok ⟨loadPair.2,
        resolveOne (got.getD []) "reload_file" ev (get_file_reloader platform),
        resolveOne (got.getD []) "pre_reload_file" ev Hook.doNothing⟩)
    else
      (loadPair.1 ++ [ext], .ok ⟨loadPair.2, get_file_reloader platform, Hook.doNothing⟩)

/-! ## Rc-file loading (src/panmk.py, lines 101-136 and 283-288)

The filesystem is an oracle from (already normalized) paths to parsed
configurations; `load_rc` merges an existing file into the given mapping.
Name resolution inside `load_default_rc` is modelled against the module's
actual global scope. -/

/-- Python `conf.update(config)`: overlay `cfg` onto `conf` key by key. -/
def confUpdate (conf cfg : Conf) : Conf :=
  cfg.foldl (fun acc kv =>
    if (List.lookup kv.1 acc).isSome then
      acc.map (fun kv2 => if kv2.1 = kv.1 then (kv2.1, kv.2) else kv2)
    else acc ++ [kv]) conf

/-- Shallow embedding of `load_rc(rc, conf)` (lines 101-115): if the file
exists (per the oracle `fs`, which also absorbs `normalize_path`), read it
and merge it; otherwise do nothing. -/
def load_rc (fs : String → Option Conf) (rc : String) (conf : Conf) : List Event × Conf :=
  match fs rc with
  | none => ([], conf)
  | some cfg => ([.rcMerged rc], confUpdate conf cfg)

/-- Names bound at module level in src/panmk.py: imports (lines 3-12) and
top-level definitions.  `args` is a local of `main`, not a module global. -/
def moduleGlobals : List String :=
  ["argparse", "asyncio", "configparser", "os", "subprocess", "sys",
   "suppress", "get_system", "sleep",
   "PROGRAM_NAME", "VERSION", "DEATH_DELAY",
   "get_platform", "get_cmd_args", "normalize_path", "read_config",
   "load_rc", "load_default_rc", "call_pandoc", "get_loader_cmd",
   "get_file_loader", "get_reloadable", "do_nothing", "send_signal",
   "hard_restart", "run_command", "get_file_reloader",
   "pre_reload_kill_proc", "continuous", "main"]

/-- Evaluation of a bare name in a function body of the module: looked up
in the module's global scope (no enclosing scope binds it), raising
`NameError` when absent. -/
def evalGlobal (n : String) : Except PyExc Unit :=
  if moduleGlobals.contains n then .ok () else .error (.nameError n)

/-- Python `os.path.join`, abstracted to slash-joining (the concrete
separator is irrelevant to the properties proved below). -/
def joinPath (parts : List String) : String := String.intercalate "/" parts

/-- Shallow embedding of `load_default_rc(platform, conf)` (lines 118-136).
On windows it reads the system drive, then calls `load_rc(path, args)` —
whose second argument evaluates the module-global name `args`; were that
name bound, the first merge would go into that object (not `conf`) and the
`~user/.panmkrc` merge into `conf` would follow.  On other platforms it
merges four fixed locations into `conf` in order. -/
def load_default_rc (fs : String → Option Conf) (env : String → Option String)
    (platform : String) (conf : Conf) : List Event × Except PyExc Conf :=
  if platform == "windows" then
    match env "systemdrive" with
    | none => ([], .error (.keyError "systemdrive"))
    | some sysdrive =>
      let path := joinPath [sysdrive, "panmk", "panmkrc"]
      match evalGlobal "args" with
      | .error e => ([], .error e)
      | .ok _ =>
        let r1 := load_rc fs path []
        let r2 := load_rc fs (joinPath ["~user", ".panmkrc"]) conf
        (r1.1 ++ r2.1, .ok r2.2)
  else
    let paths := ["/opt/local/share/panmk", "/usr/local/share/panmk",
                  "/usr/local/lib/panmk", "~"]
    let r := paths.foldl (fun (acc : List Event × Conf) p =>
      let r1 := load_rc fs (joinPath [p, ".panmk"]) acc.2
      (acc.1 ++ r1.1, r1.2)) ([], conf)
    (r.1, .ok r.2)

/-- Shallow embedding of the rc-selection block of `main` (lines 283-288):
an explicit (truthy) `--rc` path wins, otherwise the default rc files are
loaded unless `--norc` was given; `conf` starts empty. -/
def rcPhase (fs : String → Option Conf) (env : String → Option String)
    (rcArg : Option String) (norc : Bool) (platform : String) :
    List Event × Except PyExc Conf :=
  if (rcArg.getD "") ≠ "" then
    let r := load_rc fs (rcArg.getD "") []
    (r.1, .ok r.2)
  else if !norc then
    load_default_rc fs env platform []
  else ([], .ok [])

/-! ## Spec-side reference definitions

These definitions follow the specification's words (not the source); the
refinement theorems below compare the embedded code against them. -/

/-- Events a side-effect-free ("steady") hook emits when applied to a
process handle. -/
def hookEvs : Hook → Proc → List Event
  | .doNothing, _ => []
  | .sendSignal s, p => [.signal p.pid s]
  | .killProc, p => [.kill p.pid]
  | .runCommand a, _ => [.runProcess a]
  | _, _ => []

/-- A hook is steady when applying it to a process handle emits exactly
`hookEvs`, allocates no pid and raises nothing (true of the no-op, signal,
kill and fixed-command hooks). -/
def Steady (gb : Nat → Bool) (h : Hook) : Prop :=
  ∀ p n, ∃ v, applyHookVal gb h (.procH p) n = ⟨hookEvs h p, n, .ok v⟩

/-- Modelled from the spec: the reference poll trace of the change-detection
invariant — each poll reads the metadata, and exactly when it differs from
the previously observed value (initially unobserved) one
pre-reload → recompile → reload sequence is issued, in that order, and the
value is recorded. -/
def specChangeTrace (preEv compEv reloadEv : List Event) :
    List Nat → Option Nat → List Event
  | [], _ => []
  | s :: rest, pre =>
    .statPoll s :: ((if some s ≠ pre then preEv ++ compEv ++ reloadEv else [])
      ++ specChangeTrace preEv compEv reloadEv rest (some s))

/-- The metadata value recorded after a run of polls starting from `pre`. -/
def lastObs : List Nat → Option Nat → Option Nat
  | [], pre => pre
  | s :: rest, _ => lastObs rest (some s)

/-- The process a trace event acts on, when it acts on one. -/
def eventTarget : Event → Option Nat
  | .terminate p => some p
  | .waitReturned p => some p
  | .kill p => some p
  | .signal p _ => some p
  | _ => none

/-- A custom hook entry whose evaluation raises, or evaluates to a falsy
value (this includes the absent entry, whose raw string defaults to
`'None'`). -/
def hookFallsBack (sect : Sect) (key : String) (ev : String → EvalRes) : Prop :=
  match ev (pyGet sect key "None") with
  | .raises => True
  | .val v => truthy v = false

/-! ## Claims -/

/-- C1: the claim says applying the hard-restart policy never blocks beyond
the 5-second grace period and escalates to a forced kill with no error
surfaced.  The code instead calls `proc.wait(timeout=DEATH_DELAY)` bare: on
a process that is still alive after the grace period, `TimeoutExpired`
propagates out of `hard_restart` — no `kill()`, no relaunch — and crashes
the watch loop, whose handlers catch only `KeyboardInterrupt`.  The first
two conjuncts evaluate `hard_restart` on such a process; the third shows
the exiting-within-grace path (terminate, wait, kill, relaunch with the
original command line); the fourth shows the error surfacing to the
session. -/
theorem c1_hard_restart_timeout_escapes :
    hard_restart (fun _ => true) ⟨3, ["viewer", "out.pdf"], false⟩ 4
      = ⟨[.terminate 3], 4, .error .timeoutExpired⟩
  ∧ Event.kill 3 ∉ (hard_restart (fun _ => true) ⟨3, ["viewer", "out.pdf"], false⟩ 4).ev
  ∧ hard_restart (fun _ => true) ⟨3, ["viewer", "out.pdf"], true⟩ 4
      = ⟨[.terminate 3, .waitReturned 3, .kill 3, .spawn 4 ["viewer", "out.pdf"]], 5,
         .ok ⟨4, ["viewer", "out.pdf"], true⟩⟩
  ∧ watchLoop (fun _ => true) "doc.md" "doc.pdf" Hook.doNothing Hook.hardRestart
      [(1, .quiet)] none ⟨3, ["viewer", "out.pdf"], false⟩ 4
      = ⟨[.statPoll 1, .compile "doc.md" "doc.pdf", .terminate 3], 4,
         .raised .timeoutExpired⟩ := by
  refine ⟨by decide, by decide, by decide, by decide⟩

/-- C2: the claim says that with `--new-viewer` every change produces a
(kill, launch-on-output-path) pair.  In the code, `--new-viewer` wires
`reload_file = load_file` and `continuous` calls `reload_file(proc)` with
the process handle, not the output path, so the default loader's argv
contains a `Popen` object and `subprocess.run` raises `TypeError` — no new
viewer is launched (second conjunct: one change yields a kill, a recompile,
then the `TypeError`, and no `spawn`/launch event).  Worse, the session
with the default loader never reaches the loop at all: `get_reloadable`
passes the `CompletedProcess` returned by `load_file(output)` to
`subprocess.Popen`, which raises `TypeError` at startup (first conjunct:
two pending changes produce zero kills and zero launches). -/
theorem c2_new_viewer_never_relaunches :
    continuous (fun _ => true) "doc.md" "doc.pdf" (get_file_loader "linux") Hook.killProc
      (get_file_loader "linux") [(1, .quiet), (2, .quiet)] 7
      = ⟨[.compile "doc.md" "doc.pdf", .runProcess ["xdg-open", "doc.pdf"]], 7,
         .raised .typeError⟩
  ∧ watchLoop (fun _ => true) "doc.md" "doc.pdf" Hook.killProc (get_file_loader "linux")
      [(1, .quiet)] none ⟨9, ["xdg-open", "doc.pdf"], true⟩ 10
      = ⟨[.statPoll 1, .kill 9, .compile "doc.md" "doc.pdf"], 10, .raised .typeError⟩ := by
  refine ⟨by decide, by decide⟩

/-- C10: when the platform is windows, no explicit rc path is given and rc
loading is not suppressed, `load_default_rc` evaluates the undefined
module-global name `args` in its first `load_rc(path, args)` call, so the
default-rc load raises `NameError` before merging any configuration (the
event list is empty), as the claim states. -/
theorem c10_windows_default_rc_name_error (fs : String → Option Conf)
    (env : String → Option String) (conf : Conf) (d : String)
    (h : env "systemdrive" = some d) :
    load_default_rc fs env "windows" conf = ([], .error (.nameError "args"))
    ∧ rcPhase fs env none false "windows" = ([], .error (.nameError "args")) := by
  have hargs : evalGlobal "args" = .error (.nameError "args") := by decide
  constructor
  · simp [load_default_rc, h, hargs]
  · simp [rcPhase, load_default_rc, h, hargs]

/-- Witness for C10 at a concrete environment carrying a system drive. -/
theorem c10_windows_default_rc_name_error_witness :
    load_default_rc (fun _ => none)
        (fun k => if k == "systemdrive" then some "C:" else none) "windows" []
      = ([], .error (.nameError "args")) :=
  (c10_windows_default_rc_name_error (fun _ => none)
    (fun k => if k == "systemdrive" then some "C:" else none) [] "C:" (by decide)).1

/-- C8: the platform classifier returns exactly one tag for every host
operating-system name: the result is always one of the known tags or the
`"linux"` default (first conjunct); when no tag is contained in the
lower-cased name the default is returned (second conjunct); the match is
case-insensitive substring containment with first-match-wins ordering
(third conjunct); and `"Darwin-21.0"`, `"Some-BSD-Variant"`, `"Unknown-OS"`
classify as `"darwin"`, `"bsd"`, `"linux"` respectively. -/
theorem c8_get_platform_classifies :
    (∀ s, get_platform s ∈ platforms ∨ get_platform s = "linux")
  ∧ (∀ s, (∀ p ∈ platforms, strContains (pyLower s) p = false) → get_platform s = "linux")
  ∧ (∀ s i (hi : i < platforms.length),
        strContains (pyLower s) (platforms.get ⟨i, hi⟩) = true →
        (∀ p ∈ platforms.take i, strContains (pyLower s) p = false) →
        get_platform s = platforms.get ⟨i, hi⟩)
  ∧ get_platform "Darwin-21.0" = "darwin"
  ∧ get_platform "Some-BSD-Variant" = "bsd"
  ∧ get_platform "Unknown-OS" = "linux" := by
  refine ⟨?_, ?_, ?_, by decide, by decide, by decide⟩
  · intro s
    cases h : platforms.find? (fun plat => strContains (pyLower s) plat) with
    | none => right; simp [get_platform, h]
    | some p => left; simpa [get_platform, h] using List.mem_of_find?_eq_some h
  · intro s h
    have hn : platforms.find? (fun plat => strContains (pyLower s) plat) = none :=
      List.find?_eq_none.mpr (fun x hx => by simp [h x hx])
    simp [get_platform, hn]
  · intro s i hi h1 h2
    have hi4 : i < 4 := by simpa [platforms] using hi
    interval_cases i
    · simp [platforms] at h1 ⊢
      simp [get_platform, platforms, List.find?, h1]
    · simp [platforms] at h1 h2 ⊢
      simp [get_platform, platforms, List.find?, h1, h2]
    · simp [platforms] at h1 h2 ⊢
      simp [get_platform, platforms, List.find?, h1, h2]
    · simp [platforms] at h1 h2 ⊢
      have h1b : strContains (pyLower s) "bsd" = true := by simpa using h1
      simp [get_platform, platforms, List.find?, h1b, h2]
      rfl

/-- Witness for C8: the no-match branch at `"Unknown-OS"` and the
first-match branch at index 3 for `"Some-BSD-Variant"`. -/
theorem c8_get_platform_classifies_witness :
    get_platform "Unknown-OS" = "linux" ∧ get_platform "Some-BSD-Variant" = "bsd" :=
  ⟨c8_get_platform_classifies.2.1 "Unknown-OS" (by decide),
   c8_get_platform_classifies.2.2.1 "Some-BSD-Variant" 3 (by decide) (by decide) (by decide)⟩

/-- C3 counterexample: for the extension-less output path `"out"`, the
claim's "no override lookup into the settings table is performed" is false.
`os.path.splitext` always returns a 2-tuple, so the `len(ext) < 2 ⇒ None`
branch is unreachable: the extension resolves to the empty string and both
hook-resolution branches call `conf.get("")` (two lookups logged).  The
claim's "in every mode the hooks are the platform defaults" also fails:
with `--new-viewer` the reload hook is the launch strategy and the
pre-reload hook is the unconditional kill, which differ from the reload
strategy and the no-op. -/
theorem c3_no_extension_counterexample :
    (splitext (basename "out")).2 = ""
  ∧ (resolveHooks "out" [] (fun _ => EvalRes.val PyObj.noneObj) "linux" false).1
      = [some "", some ""]
  ∧ (resolveHooks "out" [] (fun _ => EvalRes.val PyObj.noneObj) "linux" true).2
      = .ok ⟨some (get_file_loader "linux"), get_file_loader "linux", Hook.killProc⟩
  ∧ get_file_loader "linux" ≠ get_file_reloader "linux"
  ∧ Hook.killProc ≠ Hook.doNothing := by
  refine ⟨by decide, by decide, by decide, by decide, by decide⟩

/-- C3 amended: if the output path has no file extension, the extension
resolves to the empty string and the override lookup is performed with key
`""`; because settings sections have nonempty names, the lookup finds
nothing, so without `--new-viewer` the resolved load, reload, and pre-reload
hooks are the platform defaults (launch strategy, reload strategy, no-op),
and with `--new-viewer` load is the platform launch strategy, reload equals
load and pre-reload is the unconditional kill; in both cases resolution
returns normally and the session proceeds. -/
theorem c3_no_extension_defaults (output : String) (conf : Conf) (ev : String → EvalRes)
    (platform : String)
    (hnoext : (splitext (basename output)).2 = "")
    (hconf : List.lookup "" conf = none) :
    resolveHooks output conf ev platform false
      = ([some "", some ""],
         .ok ⟨some (get_file_loader platform), get_file_reloader platform, Hook.doNothing⟩)
  ∧ resolveHooks output conf ev platform true
      = ([some ""],
         .ok ⟨some (get_file_loader platform), get_file_loader platform, Hook.killProc⟩) := by
  have hext : computeExt output = some "" := by
    simp [computeExt, pyTupleLen, hnoext]
  constructor
  · simp [resolveHooks, hext, hconf, confGetOpt, sectTruthy]
  · simp [resolveHooks, hext, hconf, confGetOpt, sectTruthy]

/-- Witness for C3 at the extension-less output `"out"` with an empty
configuration on linux. -/
theorem c3_no_extension_defaults_witness :
    resolveHooks "out" [] (fun _ => EvalRes.raises) "linux" false
      = ([some "", some ""],
         .ok ⟨some (get_file_loader "linux"), get_file_reloader "linux", Hook.doNothing⟩) :=
  (c3_no_extension_defaults "out" [] (fun _ => EvalRes.raises) "linux"
    (by decide) (by decide)).1

/-- One `try: eval(...) or default except Exception: default` block yields
the default whenever the entry is absent (its raw string defaults to
`'None'`, and `eval('None')` is `None`), evaluation raises, or the value is
falsy. -/
theorem resolveOne_fallback (sect : Sect) (key : String) (ev : String → EvalRes) (dflt : Hook)
    (heval : ev "None" = .val .noneObj)
    (h : List.lookup key sect = none ∨ hookFallsBack sect key ev) :
    resolveOne sect key ev dflt = dflt := by
  rcases h with h | h
  · simp [resolveOne, pyGet, h, heval, pyOr]
  · unfold hookFallsBack at h
    unfold resolveOne
    cases hev : ev (pyGet sect key "None") with
    | raises => rfl
    | val v =>
      rw [hev] at h
      cases v with
      | noneObj => rfl
      | falsyObj => rfl
      | hookObj hk => simp [truthy] at h

/-- C7: for every extension whose settings section is present (and
non-empty, per Python truthiness), resolution of the three custom hooks
never raises — the block always binds the three hooks and startup proceeds
(first conjunct) — and for each of `load_file`, `reload_file`,
`pre_reload_file`, if the entry is absent, its evaluation raises, or the
evaluated value is falsy, the resolved hook is the corresponding platform
default (launch strategy, reload strategy, no-op).  Stated for the standard
resolution path (the `--new-viewer` policy replaces the reload/pre-reload
roles wholesale and is treated in C2/C3). -/
theorem c7_custom_hook_fallback (output : String) (conf : Conf) (ev : String → EvalRes)
    (platform e : String) (sect : Sect)
    (hext : computeExt output = some e)
    (hsect : List.lookup e conf = some sect) (hne : sect ≠ [])
    (heval : ev "None" = .val .noneObj) :
    resolveHooks output conf ev platform false
      = ([some e, some e],
         .ok ⟨some (resolveOne sect "load_file" ev (get_file_loader platform)),
              resolveOne sect "reload_file" ev (get_file_reloader platform),
              resolveOne sect "pre_reload_file" ev Hook.doNothing⟩)
  ∧ ((List.lookup "load_file" sect = none ∨ hookFallsBack sect "load_file" ev) →
        resolveOne sect "load_file" ev (get_file_loader platform) = get_file_loader platform)
  ∧ ((List.lookup "reload_file" sect = none ∨ hookFallsBack sect "reload_file" ev) →
        resolveOne sect "reload_file" ev (get_file_reloader platform) = get_file_reloader platform)
  ∧ ((List.lookup "pre_reload_file" sect = none ∨ hookFallsBack sect "pre_reload_file" ev) →
        resolveOne sect "pre_reload_file" ev Hook.doNothing = Hook.doNothing) := by
  have hie : sect.isEmpty = false := by
    cases sect with
    | nil => exact absurd rfl hne
    | cons a t => rfl
  refine ⟨?_, ?_, ?_, ?_⟩
  · simp [resolveHooks, hext, hsect, confGetOpt, sectTruthy, hie]
  · intro h
    exact resolveOne_fallback sect "load_file" ev _ heval h
  · intro h
    exact resolveOne_fallback sect "reload_file" ev _ heval h
  · intro h
    exact resolveOne_fallback sect "pre_reload_file" ev _ heval h

/-- Witness for C7: a present `pdf` section whose only entry evaluates to a
falsy value; resolution succeeds and every hook falls back to its default. -/
theorem c7_custom_hook_fallback_witness :
    resolveHooks "a.pdf" [("pdf", [("reload_file", "boom")])]
        (fun _ => EvalRes.val PyObj.noneObj) "linux" false
      = ([some "pdf", some "pdf"],
         .ok ⟨some (get_file_loader "linux"), get_file_reloader "linux", Hook.doNothing⟩) := by
  have h := c7_custom_hook_fallback "a.pdf" [("pdf", [("reload_file", "boom")])]
    (fun _ => EvalRes.val PyObj.noneObj) "linux" "pdf" [("reload_file", "boom")]
    (by decide) (by decide) (by decide) (by decide)
  exact h.1.trans (by decide)

end Panmk

namespace Panmk

theorem sleep_notin_hard_restart (gb : Nat → Bool) (p : Proc) (np n : Nat) :
    Event.sleep n ∉ (hard_restart gb p np).ev := by
  unfold hard_restart
  by_cases h : p.exitsWithinGrace <;> simp [h]

theorem sleep_notin_subprocess_run (argv : List PyVal) (n : Nat) :
    Event.sleep n ∉ (subprocess_run argv).1 := by
  unfold subprocess_run
  cases allStrings argv <;> simp

theorem sleep_notin_applyLoad (lf : LoadFn) (v : PyVal) (n : Nat) :
    Event.sleep n ∉ (applyLoad lf v).1 := by
  cases lf with
  | dflt p => exact sleep_notin_subprocess_run _ n
  | constCmd a => simp [applyLoad]

theorem sleep_notin_applyHookVal (gb : Nat → Bool) (h : Hook) (v : PyVal) (np n : Nat) :
    Event.sleep n ∉ (applyHookVal gb h v np).ev := by
  cases h with
  | noneHook => simp [applyHookVal]
  | doNothing => simp [applyHookVal]
  | sendSignal s => cases v <;> simp [applyHookVal]
  | killProc => cases v <;> simp [applyHookVal]
  | hardRestart =>
    cases v <;> simp [applyHookVal]
    exact sleep_notin_hard_restart gb _ np n
  | loadFn lf =>
    simp [applyHookVal]
    exact sleep_notin_applyLoad lf v n
  | runCommand a => simp [applyHookVal]

theorem sleep_notin_innerSeq (gb : Nat → Bool) (fn out : String) (preH reloadH : Hook)
    (proc : Proc) (np n : Nat) :
    Event.sleep n ∉ (innerSeq gb fn out preH reloadH proc np).ev := by
  unfold innerSeq
  cases hres : (applyHookVal gb preH (PyVal.procH proc) np).res with
  | error e =>
    simp [hres]
    exact sleep_notin_applyHookVal gb preH _ np n
  | ok a =>
    simp [hres, call_pandoc]
    exact ⟨sleep_notin_applyHookVal gb preH _ np n, sleep_notin_applyHookVal gb reloadH _ _ n⟩

theorem sleep_notin_watchLoop (gb : Nat → Bool) (fn out : String) (preH reloadH : Hook) :
    ∀ (polls : List (Nat × IPt)) (pre : Option Nat) (proc : Proc) (np n : Nat),
      Event.sleep n ∉ (watchLoop gb fn out preH reloadH polls pre proc np).ev := by
  intro polls
  induction polls with
  | nil => intro pre proc np n; simp [watchLoop]
  | cons head rest ih =>
    obtain ⟨st, ipt⟩ := head
    intro pre proc np n
    simp only [watchLoop, loopCond, if_true]
    cases ipt with
    | outer => simp
    | inner =>
      by_cases h : some st ≠ pre <;> simp [h, ih]
    | quiet =>
      by_cases h : some st ≠ pre
      · simp only [if_pos h]
        cases hres : (innerSeq gb fn out preH reloadH proc np).res with
        | error e =>
          cases e <;> simp [hres] <;>
            first
              | exact ⟨sleep_notin_innerSeq gb fn out preH reloadH proc np n, ih _ _ _ n⟩
              | exact sleep_notin_innerSeq gb fn out preH reloadH proc np n
        | ok a =>
          simp [hres]
          exact ⟨sleep_notin_innerSeq gb fn out preH reloadH proc np n, ih _ _ _ n⟩
      · simp [h, ih]

end Panmk

namespace Panmk

/-- No embedded subprocess primitive ever emits a sleep event. -/
theorem sleep_notin_subprocess_Popen (gb : Nat → Bool) (v : PyVal) (np n : Nat) :
    Event.sleep n ∉ (subprocess_Popen gb v np).ev := by
  cases v with
  | strList ss =>
    unfold subprocess_Popen
    cases h : allStrings (ss.map PyVal.str) <;> simp [h]
  | _ => simp [subprocess_Popen]

theorem sleep_notin_get_reloadable (gb : Nat → Bool) (path : String) (loadH : Hook) (np n : Nat) :
    Event.sleep n ∉ (get_reloadable gb path loadH np).ev := by
  unfold get_reloadable
  cases hres : (applyHookVal gb loadH (PyVal.str path) np).res with
  | error e =>
    simp [hres]
    exact sleep_notin_applyHookVal gb loadH _ np n
  | ok v =>
    simp [hres]
    exact ⟨sleep_notin_applyHookVal gb loadH _ np n, sleep_notin_subprocess_Popen gb v _ n⟩

theorem watchLoop_ne_normalExit (gb : Nat → Bool) (fn out : String) (preH reloadH : Hook) :
    ∀ (polls : List (Nat × IPt)) (pre : Option Nat) (proc : Proc) (np : Nat)
      (p2 : Option Nat) (q2 : Proc),
      (watchLoop gb fn out preH reloadH polls pre proc np).res ≠ .normalExit p2 q2 := by
  intro polls
  induction polls with
  | nil => intros; simp [watchLoop]
  | cons head rest ih =>
    obtain ⟨st, ipt⟩ := head
    intro pre proc np p2 q2
    simp only [watchLoop, loopCond, if_true]
    cases ipt with
    | outer => simp
    | inner => by_cases h : some st ≠ pre <;> simp [h, ih]
    | quiet =>
      by_cases h : some st ≠ pre
      · simp only [if_pos h]
        cases hres : (innerSeq gb fn out preH reloadH proc np).res with
        | error e => cases e <;> simp [hres, ih]
        | ok a => simp [hres, ih]
      · simp [h, ih]

theorem sleep_notin_call_pandoc (fn out : String) (n : Nat) :
    Event.sleep n ∉ (call_pandoc fn out).1 := by
  simp [call_pandoc]

/-- C5: the claim says the loop blocks on a fixed 1-second delay between
every two consecutive poll iterations.  The `sleep(1)` at line 256 sits
after the body of `while True:` and is unreachable — the loop only exits
via an exception, which skips the `sleep` — so no run of `continuous` ever
emits a sleep event (first conjunct), and two consecutive poll iterations
observing unchanged metadata run back to back with nothing between their
`os.stat` observations (second conjunct). -/
theorem c5_poll_loop_never_sleeps :
    (∀ (gb : Nat → Bool) (fn out : String) (loadH preH reloadH : Hook)
       (polls : List (Nat × IPt)) (np n : Nat),
       Event.sleep n ∉ (continuous gb fn out loadH preH reloadH polls np).ev)
  ∧ watchLoop (fun _ => true) "doc.md" "doc.pdf" Hook.doNothing (Hook.sendSignal 1)
      [(5, .quiet), (5, .quiet)] (some 5) ⟨3, ["x"], true⟩ 4
      = ⟨[.statPoll 5, .statPoll 5], 4, .running (some 5) ⟨3, ["x"], true⟩⟩ := by
  refine ⟨?_, by decide⟩
  intro gb fn out loadH preH reloadH polls np n
  unfold continuous
  cases hres : (get_reloadable gb (call_pandoc fn out).2 loadH np).res with
  | error e =>
    simp only [hres]
    simp [List.mem_append, sleep_notin_call_pandoc fn out n,
      sleep_notin_get_reloadable gb (call_pandoc fn out).2 loadH np n]
  | ok proc =>
    simp only [hres]
    cases hlr : (watchLoop gb fn out preH reloadH polls none proc
        (get_reloadable gb (call_pandoc fn out).2 loadH np).np).res with
    | running p q =>
      simp [hlr, afterLoop, List.mem_append, sleep_notin_call_pandoc fn out n,
        sleep_notin_get_reloadable gb (call_pandoc fn out).2 loadH np n,
        sleep_notin_watchLoop gb fn out preH reloadH polls none proc
          ((get_reloadable gb (call_pandoc fn out).2 loadH np).np) n]
    | normalExit p q =>
      exact absurd hlr (watchLoop_ne_normalExit gb fn out preH reloadH polls none proc _ p q)
    | interrupted =>
      simp [hlr, afterLoop, List.mem_append, sleep_notin_call_pandoc fn out n,
        sleep_notin_get_reloadable gb (call_pandoc fn out).2 loadH np n,
        sleep_notin_watchLoop gb fn out preH reloadH polls none proc
          ((get_reloadable gb (call_pandoc fn out).2 loadH np).np) n]
    | raised e =>
      simp [hlr, afterLoop, List.mem_append, sleep_notin_call_pandoc fn out n,
        sleep_notin_get_reloadable gb (call_pandoc fn out).2 loadH np n,
        sleep_notin_watchLoop gb fn out preH reloadH polls none proc
          ((get_reloadable gb (call_pandoc fn out).2 loadH np).np) n]

end Panmk

namespace Panmk

/-- C4: for steady hooks (no exception, no pid allocation — true of the
platform defaults outside windows), an interrupt-free run of the watch loop
refines the spec-side change-detection trace: each iteration polls the
metadata, and exactly when it differs from the previously observed value
(initially unobserved) one pre-reload → recompile → reload sequence is
emitted, in that order; identical consecutive observations contribute no
actions, and the recorded value after the run is the last observation. -/
theorem c4_change_detection_refines_spec (gb : Nat → Bool) (fn out : String)
    (preH reloadH : Hook) (hp : Steady gb preH) (hr : Steady gb reloadH) :
    ∀ (stats : List Nat) (pre : Option Nat) (proc : Proc) (np : Nat),
    watchLoop gb fn out preH reloadH (stats.map (fun s => (s, IPt.quiet))) pre proc np
      = ⟨specChangeTrace (hookEvs preH proc) (call_pandoc fn out).1 (hookEvs reloadH proc) stats pre,
         np, .running (lastObs stats pre) proc⟩ := by
  intro stats
  induction stats with
  | nil => intro pre proc np; simp [watchLoop, specChangeTrace, lastObs]
  | cons s rest ih =>
    intro pre proc np
    obtain ⟨v1, hv1⟩ := hp proc np
    obtain ⟨v2, hv2⟩ := hr proc np
    have hinner : innerSeq gb fn out preH reloadH proc np
        = ⟨hookEvs preH proc ++ (call_pandoc fn out).1 ++ hookEvs reloadH proc, np, .ok ()⟩ := by
      unfold innerSeq
      rw [hv1]
      simp [hv2, Except.map]
    simp only [List.map_cons, watchLoop, loopCond, if_true]
    by_cases h : some s ≠ pre
    · simp [h, hinner, ih, specChangeTrace, lastObs]
    · have hpre : some s = pre := not_not.mp h
      simp [h, ih, specChangeTrace, lastObs, ← hpre]

/-- Witness for C4: polls observing 5, 5, 7 from the initially unobserved
state trigger sequences on the first and third iterations only, with the
linux-default hooks. -/
theorem c4_change_detection_refines_spec_witness :
    watchLoop (fun _ => true) "doc.md" "doc.pdf" Hook.doNothing (Hook.sendSignal 1)
      ([5, 5, 7].map (fun s => (s, IPt.quiet))) none ⟨2, [], true⟩ 6
      = ⟨[.statPoll 5, .compile "doc.md" "doc.pdf", .signal 2 1,
          .statPoll 5, .statPoll 7, .compile "doc.md" "doc.pdf", .signal 2 1],
         6, .running (some 7) ⟨2, [], true⟩⟩ :=
  (c4_change_detection_refines_spec (fun _ => true) "doc.md" "doc.pdf"
    Hook.doNothing (Hook.sendSignal 1)
    (fun p n => ⟨PyVal.noneV, rfl⟩) (fun p n => ⟨PyVal.noneV, rfl⟩)
    [5, 5, 7] none ⟨2, [], true⟩ 6).trans (by decide)

end Panmk

namespace Panmk

/-- In a watch-loop run wired with the windows defaults (no-op pre-reload,
`hard_restart` reload) on a handle that terminates within the grace period,
every targeted action hits the original pid, the loop never allocates a pid
below the starting bound, and the loop's `proc` local is never rebound. -/
theorem c9_aux (gb : Nat → Bool) (fn out : String) :
    ∀ (stats : List Nat) (pre : Option Nat) (proc : Proc) (np : Nat),
      proc.exitsWithinGrace = true → proc.pid < np →
      (∀ e ∈ (watchLoop gb fn out Hook.doNothing Hook.hardRestart
          (stats.map (fun s => (s, IPt.quiet))) pre proc np).ev,
        (∀ t, eventTarget e = some t → t = proc.pid) ∧ (∀ q a, e = Event.spawn q a → np ≤ q))
      ∧ np ≤ (watchLoop gb fn out Hook.doNothing Hook.hardRestart
          (stats.map (fun s => (s, IPt.quiet))) pre proc np).np
      ∧ ∃ pre2, (watchLoop gb fn out Hook.doNothing Hook.hardRestart
          (stats.map (fun s => (s, IPt.quiet))) pre proc np).res = .running pre2 proc := by
  intro stats
  induction stats with
  | nil =>
    intro pre proc np hg hlt
    refine ⟨by simp [watchLoop], by simp [watchLoop], pre, by simp [watchLoop]⟩
  | cons s rest ih =>
    intro pre proc np hg hlt
    have hinner : innerSeq gb fn out Hook.doNothing Hook.hardRestart proc np
        = ⟨(call_pandoc fn out).1
            ++ [.terminate proc.pid, .waitReturned proc.pid, .kill proc.pid, .spawn np proc.args],
           np + 1, .ok ()⟩ := by
      unfold innerSeq applyHookVal hard_restart
      simp [hg, Except.map]
    by_cases h : some s ≠ pre
    · obtain ⟨ihev, ihnp, pre2, ihres⟩ := ih (some s) proc (np + 1) hg (Nat.lt_succ_of_lt hlt)
      simp only [List.map_cons, watchLoop, loopCond, if_true, if_pos h, hinner]
      refine ⟨?_, by simpa using Nat.le_of_succ_le ihnp, pre2, by simpa using ihres⟩
      intro e he
      rw [List.mem_cons] at he
      rcases he with he | he
      · subst he
        refine ⟨fun t ht => by simp [eventTarget] at ht, fun q a hqa => by simp at hqa⟩
      · rw [List.mem_append] at he
        rcases he with he | he
        · rw [List.mem_append] at he
          rcases he with he | he
          · simp [call_pandoc] at he
            subst he
            refine ⟨fun t ht => by simp [eventTarget] at ht, fun q a hqa => by simp at hqa⟩
          · simp only [List.mem_cons, List.not_mem_nil, or_false] at he
            rcases he with he | he | he | he <;> subst he
            · refine ⟨fun t ht => ?_, fun q a hqa => by simp at hqa⟩
              simp [eventTarget] at ht
              omega
            · refine ⟨fun t ht => ?_, fun q a hqa => by simp at hqa⟩
              simp [eventTarget] at ht
              omega
            · refine ⟨fun t ht => ?_, fun q a hqa => by simp at hqa⟩
              simp [eventTarget] at ht
              omega
            · refine ⟨fun t ht => by simp [eventTarget] at ht, fun q a hqa => ?_⟩
              simp at hqa
              omega
        · have hP := ihev e he
          exact ⟨hP.1, fun q a hqa => Nat.le_of_succ_le (hP.2 q a hqa)⟩
    · obtain ⟨ihev, ihnp, pre2, ihres⟩ := ih pre proc np hg hlt
      simp only [List.map_cons, watchLoop, loopCond, if_true, if_neg h]
      refine ⟨?_, by simpa using ihnp, pre2, by simpa using ihres⟩
      intro e he
      rw [List.mem_cons] at he
      rcases he with he | he
      · subst he
        exact ⟨fun t ht => by simp [eventTarget] at ht, fun q a hqa => by simp at hqa⟩
      · exact ihev e he

/-- C9: `hard_restart` rebinds only its own local `proc`, so in a
continuous session with the windows default wiring the watch loop's handle
is never replaced: every terminate/wait/kill/signal action in the whole run
targets the original pid (first conjunct), after any number of changes the
loop still holds the original — now terminated — handle (second conjunct),
and no process spawned by a hard restart is ever the target of a later
pre-reload or reload action (third conjunct). -/
theorem c9_hard_restart_rebinds_only_local (gb : Nat → Bool) (fn out : String)
    (stats : List Nat) (pre : Option Nat) (proc : Proc) (np : Nat)
    (hg : proc.exitsWithinGrace = true) (hlt : proc.pid < np) :
    (∀ e ∈ (watchLoop gb fn out Hook.doNothing Hook.hardRestart
        (stats.map (fun s => (s, IPt.quiet))) pre proc np).ev,
      ∀ t, eventTarget e = some t → t = proc.pid)
  ∧ (∃ pre2, (watchLoop gb fn out Hook.doNothing Hook.hardRestart
        (stats.map (fun s => (s, IPt.quiet))) pre proc np).res = .running pre2 proc)
  ∧ (∀ e ∈ (watchLoop gb fn out Hook.doNothing Hook.hardRestart
        (stats.map (fun s => (s, IPt.quiet))) pre proc np).ev,
      ∀ q a, e = Event.spawn q a →
      ∀ e2 ∈ (watchLoop gb fn out Hook.doNothing Hook.hardRestart
        (stats.map (fun s => (s, IPt.quiet))) pre proc np).ev,
        eventTarget e2 ≠ some q) := by
  obtain ⟨hev, hnp, hres⟩ := c9_aux gb fn out stats pre proc np hg hlt
  refine ⟨fun e he t ht => (hev e he).1 t ht, hres, ?_⟩
  intro e he q a hqa e2 he2 ht2
  have hq := (hev e he).2 q a hqa
  have ht := (hev e2 he2).1 q ht2
  omega

/-- Witness for C9: after two changes under the windows default wiring, the
loop's handle is still the original process 0. -/
theorem c9_hard_restart_rebinds_only_local_witness :
    ∃ pre2, (watchLoop (fun _ => true) "a.md" "a.pdf" Hook.doNothing Hook.hardRestart
      ([1, 2].map (fun s => (s, IPt.quiet))) none ⟨0, ["v"], true⟩ 1).res
      = .running pre2 ⟨0, ["v"], true⟩ :=
  (c9_hard_restart_rebinds_only_local (fun _ => true) "a.md" "a.pdf" [1, 2] none
    ⟨0, ["v"], true⟩ 1 rfl (by decide)).2.1

end Panmk

namespace Panmk

/-- C6: a keyboard interrupt delivered while the pre-reload/recompile/
reload sequence runs is caught by the inner handler and acts as a no-op for
that iteration only — the run continues exactly as the run over the
remaining polls, with the metadata already recorded (first conjunct); an
interrupt during the outer poll stops the loop at once (second conjunct),
the outer handler absorbs it so `continuous` returns normally without
reaching the dead `sleep` (third conjunct), and the session then exits with
success status 0 (fourth conjunct). -/
theorem c6_interrupt_two_tier (gb : Nat → Bool) (fn out : String) (preH reloadH : Hook)
    (st : Nat) (rest : List (Nat × IPt)) (pre : Option Nat) (proc : Proc) (np : Nat) :
    (some st ≠ pre →
      watchLoop gb fn out preH reloadH ((st, IPt.inner) :: rest) pre proc np
        = ⟨Event.statPoll st :: (watchLoop gb fn out preH reloadH rest (some st) proc np).ev,
           (watchLoop gb fn out preH reloadH rest (some st) proc np).np,
           (watchLoop gb fn out preH reloadH rest (some st) proc np).res⟩)
  ∧ watchLoop gb fn out preH reloadH ((st, IPt.outer) :: rest) pre proc np
      = ⟨[], np, .interrupted⟩
  ∧ afterLoop LoopRes.interrupted = ([], ContRes.returned)
  ∧ sessionExit ContRes.returned = some 0 := by
  refine ⟨?_, ?_, rfl, rfl⟩
  · intro h
    simp [watchLoop, loopCond, h]
  · simp [watchLoop, loopCond]

/-- Witness for C6: an interrupted inner sequence on a changed poll leaves
only the poll observation in the trace and the loop still running with the
new metadata recorded. -/
theorem c6_interrupt_two_tier_witness :
    watchLoop (fun _ => true) "a.md" "a.pdf" Hook.doNothing Hook.doNothing
      [(1, IPt.inner)] none ⟨0, [], true⟩ 5
      = ⟨[Event.statPoll 1], 5, .running (some 1) ⟨0, [], true⟩⟩ :=
  ((c6_interrupt_two_tier (fun _ => true) "a.md" "a.pdf" Hook.doNothing Hook.doNothing
      1 [] none ⟨0, [], true⟩ 5).1 (by decide)).trans (by decide)

end Panmk
